import Mathlib

/-!
Shallow embedding of the cabat asset subsystem
(`src/cabat_assets/src/asset_storage.rs`, `handle.rs`, `asset_loader.rs`).

Machine `u32` values are modelled as `Nat` taken modulo `u32Mod = 2 ^ 32`
(release-mode wrapping arithmetic).  The crossbeam channel is modelled as a
FIFO `List Signal` held in the storage state together with a `connected`
flag (`true` while some `Sender` end is still alive; the storage itself owns
one, so in normal operation it is `true`).  `FxHashMap` is modelled as an
association list with the usual lookup / in-place update / insert / remove
operations.
-/

namespace Cabat

/-- `2 ^ 32`, the modulus of Rust `u32` arithmetic. -/
def u32Mod : Nat := 2 ^ 32

theorem u32Mod_eq : u32Mod = 4294967296 := by norm_num [u32Mod]

/-- `ReferenceCountSignal` from `asset_storage.rs`: `Increase(HandleId)` is
sent by `Handle::new` (construction and cloning), `Decrease(HandleId)` by
`Handle::drop`. -/
inductive Signal where
  | inc (id : Nat)
  | dec (id : Nat)
deriving DecidableEq, Repr

/-- The asset id carried by a signal. -/
def Signal.idOf : Signal → Nat
  | .inc id => id
  | .dec id => id

/-- `HashMap::get`: first value bound to `key`. -/
def lookupA {β : Type} : List (Nat × β) → Nat → Option β
  | [], _ => none
  | (k, v) :: rest, key => if key = k then some v else lookupA rest key

/-- `HashMap::get_mut` followed by an in-place write: update the value bound
to `key` if present, otherwise leave the map unchanged. -/
def setA {β : Type} : List (Nat × β) → Nat → β → List (Nat × β)
  | [], _, _ => []
  | (k, v) :: rest, key, val =>
    if key = k then (k, val) :: rest else (k, v) :: setA rest key val

/-- `HashMap::insert`: bind `key` to `val`, replacing any previous binding. -/
def insertA {β : Type} : List (Nat × β) → Nat → β → List (Nat × β)
  | [], key, val => [(key, val)]
  | (k, v) :: rest, key, val =>
    if key = k then (k, val) :: rest else (k, v) :: insertA rest key val

/-- `HashMap::remove`: drop every binding of `key`. -/
def eraseA {β : Type} : List (Nat × β) → Nat → List (Nat × β)
  | [], _ => []
  | (k, v) :: rest, key =>
    if key = k then eraseA rest key else (k, v) :: eraseA rest key

/-- The facts about a (base-directory-resolved) filesystem path that
`AssetStorage::load_file` consults.  `tryExists = none` models
`Path::try_exists` returning `Err`; `extension = none` models a path with
no extension component; `extension = some none` models an extension that is
not valid UTF-8 (so `OsStr::to_str` returns `None`). -/
structure PathInfo where
  tryExists : Option Bool
  isFile : Bool
  extension : Option (Option String)
deriving DecidableEq, Repr

/-- The errors of `AssetLoadError` (`asset_storage.rs`).  `other` stands for
the opaque `Other(anyhow::Error)` variant carrying a loader-defined error,
identified here by a numeric code. -/
inductive LoadErr where
  | fileDoesNotExist (p : PathInfo)
  | isNotFile (p : PathInfo)
  | invalidExtension
  | noLoaderForExtension (ext : String)
  | invalidCastType (t1 t2 : String)
  | other (code : Nat)
deriving DecidableEq, Repr

/-- One registered `Box<dyn AssetLoader<A>>`: its advertised extension list
and the result its `load_path` produces at the path being loaded. -/
structure LoaderM (A : Type) where
  extensions : List String
  result : Except LoadErr A

/-- The state of `AssetStorageInner<A>`.  `queue` is the content of the
crossbeam channel (FIFO, send order), `connected` is whether any `Sender`
is still alive. -/
structure Inner (A : Type) where
  queue : List Signal
  connected : Bool
  currentId : Nat
  loadedAssets : List (Nat × A)
  removedAssets : List Nat
  handleCount : List (Nat × Nat)
  assetLoaders : List (LoaderM A)

/-- `AssetStorage::new`. -/
def newStorage (A : Type) : Inner A :=
  { queue := [], connected := true, currentId := 0,
    loadedAssets := [], removedAssets := [], handleCount := [],
    assetLoaders := [] }

/-- `HandleInner::get_next` (`handle.rs`): return the current id, then
advance the generator by one (`u32` wrapping add). -/
def get_next (current : Nat) : Nat × Nat :=
  (current, (current + 1) % u32Mod)

/-- `AssetStorageInner::insert_asset`: assign the next id, store the data,
set the liveness count to 0, and construct the handle, whose `Handle::new`
sends `Increase(id)` on the channel.  Returns the issued id with the new
state. -/
def insertAsset {A : Type} (s : Inner A) (a : A) : Nat × Inner A :=
  let idStep := get_next s.currentId
  (idStep.1,
    { s with
      currentId := idStep.2,
      loadedAssets := insertA s.loadedAssets idStep.1 a,
      handleCount := insertA s.handleCount idStep.1 0,
      queue := s.queue ++ [Signal.inc idStep.1] })

/-- `Handle::clone` (via `Handle::new`): sends `Increase(id)`. -/
def handleClone {A : Type} (s : Inner A) (id : Nat) : Inner A :=
  { s with queue := s.queue ++ [Signal.inc id] }

/-- `Handle::drop`: sends `Decrease(id)`. -/
def handleDrop {A : Type} (s : Inner A) (id : Nat) : Inner A :=
  { s with queue := s.queue ++ [Signal.dec id] }

/-- `AssetStorage::register_loader`: push onto `asset_loaders`. -/
def registerLoader {A : Type} (s : Inner A) (L : LoaderM A) : Inner A :=
  { s with assetLoaders := s.assetLoaders ++ [L] }

/-- The fatal branches of `AssetStorageInner::update_handles`:
`unimplemented!()` on a signal for an id absent from `handle_count`, and
`panic!` on `TryRecvError::Disconnected`. -/
inductive PanicKind where
  | missingIncrease (id : Nat)
  | missingDecrease (id : Nat)
  | disconnected
deriving DecidableEq, Repr

/-- The drain loop of `update_handles`: pop signals until the channel is
empty (`TryRecvError::Empty` breaks the loop; `Disconnected` panics).
`Increase` adds one to the id's count (`u32` wrapping), `Decrease` subtracts
one and, when the new count is exactly 0, pushes the id onto the
pending-removal list.  A signal for an id absent from `handle_count` hits an
`unimplemented!()` branch. -/
def drain (connected : Bool) :
    List Signal → List (Nat × Nat) → List Nat →
    Except PanicKind (List (Nat × Nat) × List Nat)
  | [], counts, removed =>
    if connected then .ok (counts, removed) else .error .disconnected
  | Signal.inc id :: rest, counts, removed =>
    match lookupA counts id with
    | some c => drain connected rest (setA counts id ((c + 1) % u32Mod)) removed
    | none => .error (.missingIncrease id)
  | Signal.dec id :: rest, counts, removed =>
    match lookupA counts id with
    | some c =>
      let c' := (c + (u32Mod - 1)) % u32Mod
      drain connected rest (setA counts id c')
        (if c' = 0 then removed ++ [id] else removed)
    | none => .error (.missingDecrease id)

/-- The removal loop of `update_handles`: for every id on the
pending-removal list, remove its data and its count entry. -/
def removeAll {β : Type} (l : List (Nat × β)) (ids : List Nat) : List (Nat × β) :=
  ids.foldl eraseA l

/-- `AssetStorageInner::update_handles`: clear the previous pass's
pending-removal list, drain the signal queue, then remove every id on the
rebuilt pending-removal list from both maps. -/
def updateHandles {A : Type} (s : Inner A) : Except PanicKind (Inner A) :=
  match drain s.connected s.queue s.handleCount [] with
  | .error e => .error e
  | .ok (counts, removed) =>
    .ok { s with
      queue := [],
      removedAssets := removed,
      loadedAssets := removeAll s.loadedAssets removed,
      handleCount := removeAll counts removed }

/-- The outcome of one `load_file` call.  `panicked` models reaching a Rust
panic (`unwrap` on a non-UTF-8 extension). -/
inductive LoadOutcome where
  | ok (id : Nat)
  | error (e : LoadErr)
  | panicked
deriving DecidableEq, Repr

/-- The full result of `AssetStorage::load_file`: its return value, the
storage state after the call, and the index (in registration order) of the
loader whose `load_path` was invoked, if any. -/
structure LoadResult (A : Type) where
  outcome : LoadOutcome
  state : Inner A
  invoked : Option Nat

/-- `asset_loaders.iter().find(|loader| loader.extensions().contains(&ext))`,
instrumented with the position of the loader found. -/
def findLoader {A : Type} : List (LoaderM A) → String → Option (Nat × LoaderM A)
  | [], _ => none
  | L :: rest, e =>
    if e ∈ L.extensions then some (0, L)
    else (findLoader rest e).map (fun iL => (iL.1 + 1, iL.2))

/-- `AssetStorage::load_file`, after the input path has been joined onto the
configured base directory: check `try_exists` (an `Err` or `false` is
`FileDoesNotExist`), check `is_file` (`IsNotFile`), take the extension
(`InvalidExtension` when absent, `unwrap` panic when not UTF-8), find the
first matching loader (`NoLoaderForExtension`), run it (`?` propagates its
error unchanged), and on success hand the data to `insert_asset`. -/
def loadFile {A : Type} (s : Inner A) (p : PathInfo) : LoadResult A :=
  match p.tryExists with
  | none => ⟨.error (.fileDoesNotExist p), s, none⟩
  | some false => ⟨.error (.fileDoesNotExist p), s, none⟩
  | some true =>
    if p.isFile then
      match p.extension with
      | none => ⟨.error .invalidExtension, s, none⟩
      | some none => ⟨.panicked, s, none⟩
      | some (some ext) =>
        match findLoader s.assetLoaders ext with
        | none => ⟨.error (.noLoaderForExtension ext), s, none⟩
        | some iL =>
          match iL.2.result with
          | .error e => ⟨.error e, s, some iL.1⟩
          | .ok a =>
            let r := insertAsset s a
            ⟨.ok r.1, r.2, some iL.1⟩
    else ⟨.error (.isNotFile p), s, none⟩

/-- `LoadedAsset` (`asset_loader.rs`): the type name recorded by
`From<A> for LoadedAsset` together with the boxed data. -/
structure LoadedAssetM (A : Type) where
  typeName : String
  data : A
deriving Repr

/-- The outcome of the blanket `AssetLoaderOuter::load` implementation. -/
inductive OuterOutcome (A : Type) where
  | ok (la : LoadedAssetM A)
  | panicked
deriving Repr

/-- The blanket `impl AssetLoaderOuter for L` in `asset_loader.rs`:
`match L::load(...) { Ok(asset) => Ok(asset.into()), Err(_) => todo!() }`.
`res` is the result of the concrete loader's `L::load` (its opaque error
modelled as a numeric code); the `Err` arm reaches `todo!()`, a panic. -/
def assetLoaderOuterLoad {A : Type} (typeName : String) (res : Except Nat A) :
    OuterOutcome A :=
  match res with
  | .ok a => .ok ⟨typeName, a⟩
  | .error _ => .panicked

/-- Iterated `insert_asset` starting from state `s`, inserting `a` each
time: the state after `n` inserts. -/
def insertIter {A : Type} (s : Inner A) (a : A) : Nat → Inner A
  | 0 => s
  | n + 1 => (insertAsset (insertIter s a n) a).2

/-- The id issued by insert number `n + 1` (0-indexed: `issuedId s a 0` is
the id the first insert returns). -/
def issuedId {A : Type} (s : Inner A) (a : A) (n : Nat) : Nat :=
  (insertAsset (insertIter s a n) a).1

/-- Whether the running liveness count of `id` reaches exactly 0 at some
`Decrease` while the signal list is drained against the counts `counts`
(mirrors the arithmetic of `drain`; signals for absent ids, which make
`drain` panic, contribute nothing). -/
def hitsZero (id : Nat) : List (Nat × Nat) → List Signal → Bool
  | _, [] => false
  | counts, Signal.inc j :: rest =>
    match lookupA counts j with
    | some c => hitsZero id (setA counts j ((c + 1) % u32Mod)) rest
    | none => false
  | counts, Signal.dec j :: rest =>
    match lookupA counts j with
    | some c =>
      let c' := (c + (u32Mod - 1)) % u32Mod
      (decide (j = id) && decide (c' = 0)) || hitsZero id (setA counts j c') rest
    | none => false

/-! ### Association-list lemmas -/

theorem lookupA_setA_self {β : Type} :
    ∀ (l : List (Nat × β)) (k : Nat) (v c : β),
      lookupA l k = some c → lookupA (setA l k v) k = some v := by
  intro l
  induction l with
  | nil => intro k v c h; simp [lookupA] at h
  | cons kv rest ih =>
    intro k v c h
    by_cases hk : k = kv.1
    · simp [lookupA, setA, hk]
    · simp only [lookupA, setA, if_neg hk] at h ⊢
      exact ih k v c h

theorem lookupA_setA_ne {β : Type} :
    ∀ (l : List (Nat × β)) (k j : Nat) (v : β), j ≠ k →
      lookupA (setA l k v) j = lookupA l j := by
  intro l
  induction l with
  | nil => intro k j v _; simp [setA]
  | cons kv rest ih =>
    intro k j v hjk
    by_cases hk : k = kv.1
    · subst hk
      simp [setA, lookupA, hjk]
    · simp only [setA, if_neg hk, lookupA]
      by_cases hj : j = kv.1
      · simp [hj]
      · simp only [if_neg hj]
        exact ih k j v hjk

theorem lookupA_setA_isSome {β : Type} (l : List (Nat × β)) (k j : Nat) (v : β)
    (h : (lookupA l j).isSome) : (lookupA (setA l k v) j).isSome := by
  by_cases hjk : j = k
  · subst hjk
    cases hl : lookupA l j with
    | none => rw [hl] at h; simp at h
    | some c => rw [lookupA_setA_self l j v c hl]; rfl
  · rw [lookupA_setA_ne l k j v hjk]; exact h

theorem lookupA_eraseA {β : Type} :
    ∀ (l : List (Nat × β)) (k j : Nat),
      lookupA (eraseA l k) j = if j = k then none else lookupA l j := by
  intro l
  induction l with
  | nil => intro k j; simp [eraseA, lookupA]
  | cons kv rest ih =>
    intro k j
    rcases kv with ⟨a, b⟩
    by_cases hk : k = a <;> by_cases hj : j = a <;> by_cases hjk : j = k <;>
      simp_all [eraseA, lookupA]

theorem removeAll_cons {β : Type} (l : List (Nat × β)) (i : Nat) (ids : List Nat) :
    removeAll l (i :: ids) = removeAll (eraseA l i) ids := rfl

theorem removeAll_nil {β : Type} (l : List (Nat × β)) : removeAll l [] = l := rfl

theorem mem_of_removeAll_none {β : Type} :
    ∀ (ids : List Nat) (l : List (Nat × β)) (j : Nat),
      (lookupA l j).isSome → lookupA (removeAll l ids) j = none → j ∈ ids := by
  intro ids
  induction ids with
  | nil =>
    intro l j hsome hnone
    rw [removeAll_nil] at hnone
    rw [hnone] at hsome
    simp at hsome
  | cons i ids ih =>
    intro l j hsome hnone
    rw [removeAll_cons] at hnone
    by_cases hji : j = i
    · exact hji ▸ List.mem_cons_self i ids
    · have h1 : (lookupA (eraseA l i) j).isSome := by
        rw [lookupA_eraseA l i j, if_neg hji]; exact hsome
      exact List.mem_cons_of_mem i (ih (eraseA l i) j h1 hnone)

/-! ### Drain-loop lemmas -/

theorem drain_ok_connected {c : Bool} :
    ∀ (q : List Signal) (counts : List (Nat × Nat)) (removed : List Nat)
      (r : List (Nat × Nat) × List Nat),
      drain c q counts removed = Except.ok r → c = true := by
  intro q
  induction q with
  | nil =>
    intro counts removed r h
    cases c with
    | true => rfl
    | false => simp [drain] at h
  | cons s rest ih =>
    intro counts removed r h
    cases s with
    | inc id =>
      cases hl : lookupA counts id with
      | some cnt =>
        rw [drain, hl] at h
        exact ih _ _ r h
      | none => rw [drain, hl] at h; cases h
    | dec id =>
      cases hl : lookupA counts id with
      | some cnt =>
        rw [drain, hl] at h
        exact ih _ _ r h
      | none => rw [drain, hl] at h; cases h

theorem drain_disconnected_error :
    ∀ (q : List Signal) (counts : List (Nat × Nat)) (removed : List Nat),
      ∃ e, drain false q counts removed = Except.error e := by
  intro q
  induction q with
  | nil => intro counts removed; exact ⟨.disconnected, by simp [drain]⟩
  | cons s rest ih =>
    intro counts removed
    cases s with
    | inc id =>
      cases hl : lookupA counts id with
      | some cnt =>
        obtain ⟨e, he⟩ := ih (setA counts id ((cnt + 1) % u32Mod)) removed
        exact ⟨e, by rw [drain, hl]; exact he⟩
      | none => exact ⟨.missingIncrease id, by rw [drain, hl]⟩
    | dec id =>
      cases hl : lookupA counts id with
      | some cnt =>
        obtain ⟨e, he⟩ :=
          ih (setA counts id ((cnt + (u32Mod - 1)) % u32Mod))
            (if (cnt + (u32Mod - 1)) % u32Mod = 0 then removed ++ [id] else removed)
        exact ⟨e, by rw [drain, hl]; exact he⟩
      | none => exact ⟨.missingDecrease id, by rw [drain, hl]⟩

theorem drain_ok_of_present :
    ∀ (q : List Signal) (counts : List (Nat × Nat)) (removed : List Nat),
      (∀ sig ∈ q, (lookupA counts sig.idOf).isSome) →
      ∃ r, drain true q counts removed = Except.ok r := by
  intro q
  induction q with
  | nil => intro counts removed _; exact ⟨(counts, removed), by simp [drain]⟩
  | cons s rest ih =>
    intro counts removed hpres
    cases s with
    | inc id =>
      have hid : (lookupA counts id).isSome :=
        hpres (Signal.inc id) (List.mem_cons_self _ _)
      cases hl : lookupA counts id with
      | none => rw [hl] at hid; simp at hid
      | some cnt =>
        have hrest : ∀ sig ∈ rest,
            (lookupA (setA counts id ((cnt + 1) % u32Mod)) sig.idOf).isSome :=
          fun sig hs => lookupA_setA_isSome counts id sig.idOf _
            (hpres sig (List.mem_cons_of_mem _ hs))
        obtain ⟨r, hr⟩ := ih _ removed hrest
        exact ⟨r, by rw [drain, hl]; exact hr⟩
    | dec id =>
      have hid : (lookupA counts id).isSome :=
        hpres (Signal.dec id) (List.mem_cons_self _ _)
      cases hl : lookupA counts id with
      | none => rw [hl] at hid; simp at hid
      | some cnt =>
        have hrest : ∀ sig ∈ rest,
            (lookupA (setA counts id ((cnt + (u32Mod - 1)) % u32Mod)) sig.idOf).isSome :=
          fun sig hs => lookupA_setA_isSome counts id sig.idOf _
            (hpres sig (List.mem_cons_of_mem _ hs))
        obtain ⟨r, hr⟩ := ih _
          (if (cnt + (u32Mod - 1)) % u32Mod = 0 then removed ++ [id] else removed) hrest
        exact ⟨r, by rw [drain, hl]; exact hr⟩

theorem drain_error_of_absent :
    ∀ (q : List Signal) (counts : List (Nat × Nat)) (removed : List Nat) (c : Bool),
      (∃ sig ∈ q, lookupA counts sig.idOf = none) →
      ∃ e, drain c q counts removed = Except.error e := by
  intro q
  induction q with
  | nil => intro counts removed c h; obtain ⟨sig, hmem, _⟩ := h; cases hmem
  | cons s rest ih =>
    intro counts removed c h
    obtain ⟨sig, hmem, hnone⟩ := h
    rcases List.mem_cons.mp hmem with heq | htail
    · subst heq
      cases sig with
      | inc id =>
        cases hl : lookupA counts id with
        | none => exact ⟨.missingIncrease id, by rw [drain, hl]⟩
        | some cnt => simp only [Signal.idOf] at hnone; rw [hnone] at hl; cases hl
      | dec id =>
        cases hl : lookupA counts id with
        | none => exact ⟨.missingDecrease id, by rw [drain, hl]⟩
        | some cnt => simp only [Signal.idOf] at hnone; rw [hnone] at hl; cases hl
    · cases s with
      | inc id =>
        cases hl : lookupA counts id with
        | none => exact ⟨.missingIncrease id, by rw [drain, hl]⟩
        | some cnt =>
          have hnone' : lookupA (setA counts id ((cnt + 1) % u32Mod)) sig.idOf = none := by
            by_cases hji : sig.idOf = id
            · rw [hji] at hnone; rw [hnone] at hl; cases hl
            · rw [lookupA_setA_ne counts id sig.idOf _ hji]; exact hnone
          obtain ⟨e, he⟩ := ih _ removed c ⟨sig, htail, hnone'⟩
          exact ⟨e, by rw [drain, hl]; exact he⟩
      | dec id =>
        cases hl : lookupA counts id with
        | none => exact ⟨.missingDecrease id, by rw [drain, hl]⟩
        | some cnt =>
          have hnone' : lookupA (setA counts id ((cnt + (u32Mod - 1)) % u32Mod))
              sig.idOf = none := by
            by_cases hji : sig.idOf = id
            · rw [hji] at hnone; rw [hnone] at hl; cases hl
            · rw [lookupA_setA_ne counts id sig.idOf _ hji]; exact hnone
          obtain ⟨e, he⟩ := ih _
            (if (cnt + (u32Mod - 1)) % u32Mod = 0 then removed ++ [id] else removed)
            c ⟨sig, htail, hnone'⟩
          exact ⟨e, by rw [drain, hl]; exact he⟩

/-- The state a successful maintenance pass leaves behind, given the drained
counts and the rebuilt pending-removal list. -/
def afterPass {A : Type} (s : Inner A) (counts : List (Nat × Nat))
    (removed : List Nat) : Inner A :=
  { s with
    queue := [],
    removedAssets := removed,
    loadedAssets := removeAll s.loadedAssets removed,
    handleCount := removeAll counts removed }

theorem updateHandles_ok_inv {A : Type} {s s' : Inner A}
    (h : updateHandles s = Except.ok s') :
    ∃ counts removed,
      drain s.connected s.queue s.handleCount [] = Except.ok (counts, removed) ∧
      s' = afterPass s counts removed := by
  unfold updateHandles at h
  cases hd : drain s.connected s.queue s.handleCount [] with
  | error e => rw [hd] at h; cases h
  | ok r =>
    obtain ⟨counts, removed⟩ := r
    rw [hd] at h
    exact ⟨counts, removed, rfl, (Except.ok.inj h).symm⟩

theorem drain_removed_mem :
    ∀ (q : List Signal) (counts : List (Nat × Nat)) (removed : List Nat) (c : Bool)
      (counts' : List (Nat × Nat)) (removed' : List Nat),
      drain c q counts removed = Except.ok (counts', removed') →
      ∀ id, id ∈ removed' → id ∈ removed ∨ hitsZero id counts q = true := by
  intro q
  induction q with
  | nil =>
    intro counts removed c counts' removed' h id hmem
    cases c with
    | false => simp [drain] at h
    | true =>
      simp only [drain, if_pos rfl] at h
      obtain ⟨-, h2⟩ := Prod.mk.inj (Except.ok.inj h)
      left; rw [← h2] at hmem; exact hmem
  | cons sg rest ih =>
    intro counts removed c counts' removed' h id hmem
    cases sg with
    | inc j =>
      cases hl : lookupA counts j with
      | none => rw [drain, hl] at h; cases h
      | some cnt =>
        rw [drain, hl] at h
        rcases ih _ _ _ _ _ h id hmem with hin | hz
        · left; exact hin
        · right
          simp only [hitsZero, hl]
          exact hz
    | dec j =>
      cases hl : lookupA counts j with
      | none => rw [drain, hl] at h; cases h
      | some cnt =>
        rw [drain, hl] at h
        rcases ih _ _ _ _ _ h id hmem with hin | hz
        · by_cases hc : (cnt + (u32Mod - 1)) % u32Mod = 0
          · rw [if_pos hc] at hin
            rcases List.mem_append.mp hin with h1 | h2
            · left; exact h1
            · right
              have hj : j = id := (List.mem_singleton.mp h2).symm
              simp only [hitsZero, hl]
              simp [hj, hc]
          · rw [if_neg hc] at hin; left; exact hin
        · right
          simp only [hitsZero, hl]
          simp only [Bool.or_eq_true]
          right
          exact hz

/-! ### Claim C1 -/

/-- A storage holding asset 0 with reconciled count 1, whose queue holds a
`Decrease(0)` drained before an `Increase(0)` (the order the claim says is
tolerated). -/
def sC1 : Inner Nat :=
  { queue := [Signal.dec 0, Signal.inc 0], connected := true, currentId := 1,
    loadedAssets := [(0, 42)], removedAssets := [], handleCount := [(0, 1)],
    assetLoaders := [] }

/-- C1 counterexample: draining `[Decrease 0, Increase 0]` against count 1
ends the pass with the reconciled count of id 0 equal to 1 (not 0), yet the
maintenance pass still removes id 0 from the asset mapping and erases its
liveness entry, because the removal loop replays the pending-removal list
without rechecking the final count. -/
theorem maintenance_removes_id_with_final_count_one :
    drain true [Signal.dec 0, Signal.inc 0] [(0, 1)] [] =
      Except.ok ([(0, 1)], [0])
    ∧ updateHandles sC1 = Except.ok
        { queue := [], connected := true, currentId := 1, loadedAssets := [],
          removedAssets := [0], handleCount := [], assetLoaders := [] } :=
  ⟨rfl, rfl⟩

/-- C1 (amended): an asset id is removed from the mapping by a maintenance
pass only if its running liveness count reaches exactly 0 at some point
while that pass drains the signal queue — not necessarily at the end of the
pass: a `Decrease` drained before the `Increase` of a concurrently created
clone removes the id even though the final count is 1. -/
theorem removed_asset_count_hit_zero_during_drain {A : Type}
    (s s' : Inner A) (id : Nat)
    (h : updateHandles s = Except.ok s')
    (hpre : (lookupA s.loadedAssets id).isSome)
    (hpost : lookupA s'.loadedAssets id = none) :
    hitsZero id s.handleCount s.queue = true := by
  obtain ⟨counts, removed, hd, hs'⟩ := updateHandles_ok_inv h
  subst hs'
  have hmem : id ∈ removed :=
    mem_of_removeAll_none removed s.loadedAssets id hpre hpost
  rcases drain_removed_mem s.queue s.handleCount [] s.connected
      counts removed hd id hmem with hin | hz
  · cases hin
  · exact hz

/-- The storage used to instantiate the amended C1 theorem. -/
def sC1w : Inner Nat :=
  { queue := [Signal.dec 0], connected := true, currentId := 1,
    loadedAssets := [(0, 9)], removedAssets := [], handleCount := [(0, 1)],
    assetLoaders := [] }

/-- The state one maintenance pass leaves `sC1w` in. -/
def sC1w' : Inner Nat :=
  { queue := [], connected := true, currentId := 1, loadedAssets := [],
    removedAssets := [0], handleCount := [], assetLoaders := [] }

theorem removed_asset_count_hit_zero_during_drain_witness :
    hitsZero 0 [(0, 1)] [Signal.dec 0] = true :=
  removed_asset_count_hit_zero_during_drain sC1w sC1w' 0 rfl rfl rfl

/-! ### Claim C2 -/

/-- C2: the blanket `AssetLoaderOuter::load` maps every loader failure to
`todo!()` — a panic — instead of returning the loader's error unchanged. -/
theorem asset_loader_outer_error_panics :
    ∀ (A : Type) (typeName : String) (code : Nat),
      assetLoaderOuterLoad typeName (Except.error code : Except Nat A) =
        OuterOutcome.panicked :=
  fun _ _ _ => rfl

/-! ### Claim C7 -/

/-- A storage whose next maintenance pass evicts asset 0. -/
def sC7 : Inner Nat :=
  { queue := [Signal.dec 0], connected := true, currentId := 1,
    loadedAssets := [(0, 5)], removedAssets := [], handleCount := [(0, 1)],
    assetLoaders := [] }

/-- `sC7` after one maintenance pass: asset gone, pending-removal list `[0]`. -/
def sC7a : Inner Nat :=
  { queue := [], connected := true, currentId := 1, loadedAssets := [],
    removedAssets := [0], handleCount := [], assetLoaders := [] }

/-- `sC7a` after a second maintenance pass: identical except that the
pending-removal list has been cleared. -/
def sC7b : Inner Nat :=
  { queue := [], connected := true, currentId := 1, loadedAssets := [],
    removedAssets := [], handleCount := [], assetLoaders := [] }

/-- C7 counterexample: after a pass that evicted an asset, the
pending-removal list is non-empty; the second pass clears it, so the state
after the second run is not identical to the state after the first run. -/
theorem maintenance_twice_not_identical :
    updateHandles sC7 = Except.ok sC7a
    ∧ updateHandles sC7a = Except.ok sC7b
    ∧ sC7b ≠ sC7a :=
  ⟨rfl, rfl, fun h => by
    have h2 := congrArg Inner.removedAssets h
    simp [sC7a, sC7b] at h2⟩

/-- C7 (amended): with no intervening handle activity, a second maintenance
pass drains an empty queue, removes nothing, and leaves every component of
the state unchanged except the pending-removal list, which it clears. -/
theorem maintenance_second_pass_noop {A : Type} (s s1 : Inner A)
    (h : updateHandles s = Except.ok s1) :
    updateHandles s1 = Except.ok { s1 with removedAssets := [] } := by
  obtain ⟨counts, removed, hd, hs1⟩ := updateHandles_ok_inv h
  have hconn : s.connected = true :=
    drain_ok_connected s.queue s.handleCount [] _ hd
  subst hs1
  simp [updateHandles, drain, afterPass, hconn, removeAll_nil]

theorem maintenance_second_pass_noop_witness :
    updateHandles sC7a = Except.ok { sC7a with removedAssets := [] } :=
  maintenance_second_pass_noop sC7 sC7a rfl

/-! ### Claim C9 -/

/-- C9: a maintenance pass (1) completes without reaching a panic branch
when every drained signal's id is present in the liveness table and the
storage still holds the sending end; (2) reaches the disconnection panic
when every sender is gone; (3) reaches the `unimplemented!()` panic when
some drained signal's id is absent from the liveness table. -/
theorem update_handles_panic_semantics {A : Type} (s : Inner A) :
    ((∀ sig ∈ s.queue, (lookupA s.handleCount sig.idOf).isSome) →
        s.connected = true → ∃ s', updateHandles s = Except.ok s')
    ∧ (s.connected = false → ∃ e, updateHandles s = Except.error e)
    ∧ ((∃ sig ∈ s.queue, lookupA s.handleCount sig.idOf = none) →
        ∃ e, updateHandles s = Except.error e) := by
  refine ⟨?_, ?_, ?_⟩
  · intro hpres hconn
    obtain ⟨⟨counts, removed⟩, hr⟩ :=
      drain_ok_of_present s.queue s.handleCount [] hpres
    have hr' : drain s.connected s.queue s.handleCount [] =
        Except.ok (counts, removed) := by rw [hconn]; exact hr
    refine ⟨afterPass s counts removed, ?_⟩
    unfold updateHandles
    rw [hr']
    rfl
  · intro hconn
    obtain ⟨e, he⟩ := drain_disconnected_error s.queue s.handleCount []
    refine ⟨e, ?_⟩
    unfold updateHandles
    rw [hconn, he]
  · intro hex
    obtain ⟨e, he⟩ :=
      drain_error_of_absent s.queue s.handleCount [] s.connected hex
    refine ⟨e, ?_⟩
    unfold updateHandles
    rw [he]

/-- A healthy storage: one pending `Increase(0)`, id 0 present, senders alive. -/
def s9ok : Inner Nat :=
  { queue := [Signal.inc 0], connected := true, currentId := 1,
    loadedAssets := [(0, 5)], removedAssets := [], handleCount := [(0, 1)],
    assetLoaders := [] }

/-- The same storage with every sender gone. -/
def s9disc : Inner Nat :=
  { queue := [Signal.inc 0], connected := false, currentId := 1,
    loadedAssets := [(0, 5)], removedAssets := [], handleCount := [(0, 1)],
    assetLoaders := [] }

/-- A storage with a pending signal for an id absent from the liveness table. -/
def s9absent : Inner Nat :=
  { queue := [Signal.inc 7], connected := true, currentId := 1,
    loadedAssets := [], removedAssets := [], handleCount := [],
    assetLoaders := [] }

theorem update_handles_panic_semantics_witness :
    (∃ s', updateHandles s9ok = Except.ok s')
    ∧ (∃ e, updateHandles s9disc = Except.error e)
    ∧ (∃ e, updateHandles s9absent = Except.error e) :=
  ⟨(update_handles_panic_semantics s9ok).1 (by decide) rfl,
   (update_handles_panic_semantics s9disc).2.1 rfl,
   (update_handles_panic_semantics s9absent).2.2 ⟨Signal.inc 7, by decide, rfl⟩⟩

/-! ### Claim C10 -/

/-- A path that exists, is a regular file, and has an extension component
that is not valid UTF-8. -/
def pNonUtf8 : PathInfo :=
  { tryExists := some true, isFile := true, extension := some none }

/-- C10: on an existing regular file whose extension is not valid UTF-8,
`load_file` reaches the `unwrap` on `OsStr::to_str` and panics — it returns
no `AssetLoadError` variant, and no loader is ever invoked. -/
theorem load_file_non_utf8_extension_panics (s : Inner Nat) :
    (loadFile s pNonUtf8).outcome = LoadOutcome.panicked
    ∧ (∀ e, (loadFile s pNonUtf8).outcome ≠ LoadOutcome.error e)
    ∧ (loadFile s pNonUtf8).invoked = none := by
  refine ⟨rfl, ?_, rfl⟩
  intro e h
  simp [loadFile, pNonUtf8] at h

/-! ### Claim C3 -/

theorem findLoader_none {A : Type} :
    ∀ (ls : List (LoaderM A)) (e : String),
      (∀ L ∈ ls, e ∉ L.extensions) → findLoader ls e = none := by
  intro ls
  induction ls with
  | nil => intro e _; rfl
  | cons L rest ih =>
    intro e h
    have h1 : e ∉ L.extensions := h L (List.mem_cons_self _ _)
    simp only [findLoader, if_neg h1]
    rw [ih e (fun L' hl => h L' (List.mem_cons_of_mem _ hl))]
    rfl

/-- C3: `load_file` fails with `FileDoesNotExist` when `try_exists` errors
or returns `false`, with `IsNotFile` when the path exists but is not a
regular file, with `InvalidExtension` when the path has no extension
component, and with `NoLoaderForExtension` when no registered loader
advertises the extension; in every one of these cases no loader is invoked
and the storage state is untouched. -/
theorem load_file_error_taxonomy {A : Type} (s : Inner A) (p : PathInfo) :
    (p.tryExists = none →
      loadFile s p = ⟨.error (.fileDoesNotExist p), s, none⟩)
    ∧ (p.tryExists = some false →
      loadFile s p = ⟨.error (.fileDoesNotExist p), s, none⟩)
    ∧ (p.tryExists = some true → p.isFile = false →
      loadFile s p = ⟨.error (.isNotFile p), s, none⟩)
    ∧ (p.tryExists = some true → p.isFile = true → p.extension = none →
      loadFile s p = ⟨.error .invalidExtension, s, none⟩)
    ∧ (∀ ext, p.tryExists = some true → p.isFile = true →
      p.extension = some (some ext) →
      (∀ L ∈ s.assetLoaders, ext ∉ L.extensions) →
      loadFile s p = ⟨.error (.noLoaderForExtension ext), s, none⟩) := by
  refine ⟨?_, ?_, ?_, ?_, ?_⟩
  · intro h1; simp [loadFile, h1]
  · intro h1; simp [loadFile, h1]
  · intro h1 h2; simp [loadFile, h1, h2]
  · intro h1 h2 h3; simp [loadFile, h1, h2, h3]
  · intro ext h1 h2 h3 habs
    have hfind : findLoader s.assetLoaders ext = none := findLoader_none _ _ habs
    simp [loadFile, h1, h2, h3, hfind]

/-- `try_exists` returned `Err`. -/
def pIoErr : PathInfo := { tryExists := none, isFile := false, extension := none }

/-- The resolved path does not exist. -/
def pMissing : PathInfo := { tryExists := some false, isFile := false, extension := none }

/-- The resolved path exists but is a directory. -/
def pDir : PathInfo := { tryExists := some true, isFile := false, extension := none }

/-- An existing regular file with no extension component. -/
def pNoExt : PathInfo := { tryExists := some true, isFile := true, extension := none }

/-- An existing regular file with extension `txt`. -/
def pTxt : PathInfo :=
  { tryExists := some true, isFile := true, extension := some (some "txt") }

theorem load_file_error_taxonomy_witness :
    loadFile (newStorage Nat) pIoErr =
      ⟨.error (.fileDoesNotExist pIoErr), newStorage Nat, none⟩
    ∧ loadFile (newStorage Nat) pMissing =
      ⟨.error (.fileDoesNotExist pMissing), newStorage Nat, none⟩
    ∧ loadFile (newStorage Nat) pDir =
      ⟨.error (.isNotFile pDir), newStorage Nat, none⟩
    ∧ loadFile (newStorage Nat) pNoExt =
      ⟨.error .invalidExtension, newStorage Nat, none⟩
    ∧ loadFile (newStorage Nat) pTxt =
      ⟨.error (.noLoaderForExtension "txt"), newStorage Nat, none⟩ :=
  ⟨(load_file_error_taxonomy (newStorage Nat) pIoErr).1 rfl,
   (load_file_error_taxonomy (newStorage Nat) pMissing).2.1 rfl,
   (load_file_error_taxonomy (newStorage Nat) pDir).2.2.1 rfl rfl,
   (load_file_error_taxonomy (newStorage Nat) pNoExt).2.2.2.1 rfl rfl rfl,
   (load_file_error_taxonomy (newStorage Nat) pTxt).2.2.2.2 "txt" rfl rfl rfl
     (by intro L hL; simp [newStorage] at hL)⟩

/-! ### Claim C4 -/

theorem loadFile_state_cases {A : Type} (s : Inner A) (p : PathInfo) :
    (∃ id, (loadFile s p).outcome = LoadOutcome.ok id)
    ∨ (loadFile s p).state = s := by
  rcases p with ⟨te, isf, ext⟩
  cases te with
  | none => right; rfl
  | some b =>
    cases b with
    | false => right; rfl
    | true =>
      cases isf with
      | false => right; rfl
      | true =>
        cases ext with
        | none => right; rfl
        | some oe =>
          cases oe with
          | none => right; rfl
          | some e =>
            cases hfl : findLoader s.assetLoaders e with
            | none => right; simp [loadFile, hfl]
            | some iL =>
              cases hres : iL.2.result with
              | error er => right; simp [loadFile, hfl, hres]
              | ok a =>
                left
                exact ⟨(insertAsset s a).1, by simp [loadFile, hfl, hres]⟩

/-- C4: whenever `load_file` returns an error — any variant, loader
failures included — the storage state is unchanged: same asset mapping,
same liveness table, no `AssetId` consumed; and because nothing is
memoized, repeating the identical request gives the identical result,
re-attempted from scratch. -/
theorem load_file_failure_no_side_effect {A : Type} (s : Inner A)
    (p : PathInfo) (e : LoadErr)
    (h : (loadFile s p).outcome = LoadOutcome.error e) :
    (loadFile s p).state = s
    ∧ (loadFile s p).state.currentId = s.currentId
    ∧ (loadFile s p).state.loadedAssets = s.loadedAssets
    ∧ (loadFile s p).state.handleCount = s.handleCount
    ∧ loadFile (loadFile s p).state p = loadFile s p := by
  have hst : (loadFile s p).state = s := by
    rcases loadFile_state_cases s p with ⟨id, hok⟩ | hst
    · rw [hok] at h; cases h
    · exact hst
  exact ⟨hst, by rw [hst], by rw [hst], by rw [hst], by rw [hst]⟩

theorem load_file_failure_no_side_effect_witness :
    (loadFile (newStorage Nat) pMissing).state = newStorage Nat :=
  (load_file_failure_no_side_effect (newStorage Nat) pMissing
    (.fileDoesNotExist pMissing) rfl).1

/-! ### Claim C5 -/

theorem findLoader_first {A : Type} :
    ∀ (pre : List (LoaderM A)) (L : LoaderM A) (post : List (LoaderM A))
      (e : String),
      (∀ L' ∈ pre, e ∉ L'.extensions) → e ∈ L.extensions →
      findLoader (pre ++ L :: post) e = some (pre.length, L) := by
  intro pre
  induction pre with
  | nil => intro L post e _ he; simp [findLoader, he]
  | cons P rest ih =>
    intro L post e hpre he
    have h1 : e ∉ P.extensions := hpre P (List.mem_cons_self _ _)
    simp only [List.cons_append, findLoader, if_neg h1, List.append_eq]
    rw [ih L post e (fun L' hl => hpre L' (List.mem_cons_of_mem _ hl)) he]
    rfl

/-- The loader `L1` of the spec scenario: extensions `{"a","b"}`, decoding
to the value 1. -/
def loaderL1 : LoaderM Nat := { extensions := ["a", "b"], result := Except.ok 1 }

/-- The loader `L2` of the spec scenario: extensions `{"b"}`, decoding to
the value 2. -/
def loaderL2 : LoaderM Nat := { extensions := ["b"], result := Except.ok 2 }

/-- A fresh storage with `L1` then `L2` registered, in that order. -/
def sL : Inner Nat :=
  registerLoader (registerLoader (newStorage Nat) loaderL1) loaderL2

/-- An existing regular file with extension `b`. -/
def pExtB : PathInfo :=
  { tryExists := some true, isFile := true, extension := some (some "b") }

/-- C5: `register_loader` appends to the loader list without
de-duplication; dispatch picks the first loader in registration order whose
advertised extension list contains the requested extension; concretely,
with `L1 {"a","b"}` and `L2 {"b"}` registered in that order, loading a path
with extension `"b"` invokes `L1` (index 0) and stores `L1`'s decoded
value, not `L2`'s. -/
theorem first_match_loader_dispatch :
    (∀ (A : Type) (s : Inner A) (L : LoaderM A),
      (registerLoader s L).assetLoaders = s.assetLoaders ++ [L])
    ∧ (∀ (A : Type) (pre : List (LoaderM A)) (L : LoaderM A)
        (post : List (LoaderM A)) (e : String),
      (∀ L' ∈ pre, e ∉ L'.extensions) → e ∈ L.extensions →
      findLoader (pre ++ L :: post) e = some (pre.length, L))
    ∧ sL.assetLoaders = [loaderL1, loaderL2]
    ∧ (loadFile sL pExtB).invoked = some 0
    ∧ (loadFile sL pExtB).outcome = LoadOutcome.ok 0
    ∧ lookupA (loadFile sL pExtB).state.loadedAssets 0 = some 1 :=
  ⟨fun _ _ _ => rfl, fun _ => findLoader_first, rfl, rfl, rfl, rfl⟩

theorem first_match_loader_dispatch_witness :
    findLoader ([loaderL2] ++ loaderL1 :: []) "a" = some (1, loaderL1) :=
  first_match_loader_dispatch.2.1 Nat [loaderL2] loaderL1 [] "a"
    (by decide) (by decide)

/-! ### Claim C6 -/

theorem inc_then_dec_mod (c : Nat) (h2 : c < u32Mod) :
    ((c + 1) % u32Mod + (u32Mod - 1)) % u32Mod = c := by
  rw [Nat.mod_add_mod, u32Mod_eq]
  rw [u32Mod_eq] at h2
  omega

/-- C6: starting from a reconciled state (empty queue) in which `id` is
present with liveness count `c ≥ 1`, cloning a handle of `id` and
immediately dropping the clone, then running one maintenance pass, leaves
every liveness count as it was, keeps the asset present, and removes
nothing: clone-then-drop is an identity on the storage state. -/
theorem clone_drop_identity {A : Type} (s : Inner A) (id : Nat) (c : Nat)
    (a : A)
    (hq : s.queue = []) (hconn : s.connected = true)
    (hc : lookupA s.handleCount id = some c)
    (h1 : 1 ≤ c) (h2 : c < u32Mod)
    (ha : lookupA s.loadedAssets id = some a) :
    ∃ s', updateHandles (handleDrop (handleClone s id) id) = Except.ok s'
      ∧ (∀ j, lookupA s'.handleCount j = lookupA s.handleCount j)
      ∧ s'.loadedAssets = s.loadedAssets
      ∧ lookupA s'.loadedAssets id = some a
      ∧ s'.removedAssets = [] := by
  have harith := inc_then_dec_mod c h2
  have hc1 : lookupA (setA s.handleCount id ((c + 1) % u32Mod)) id =
      some ((c + 1) % u32Mod) :=
    lookupA_setA_self _ id _ c hc
  have h0 : ¬ c = 0 := by omega
  have hdrain : drain true [Signal.inc id, Signal.dec id] s.handleCount [] =
      Except.ok (setA (setA s.handleCount id ((c + 1) % u32Mod)) id c, []) := by
    simp only [drain, hc, hc1, harith, if_neg h0, if_pos rfl]
    rfl
  have hqueue : (handleDrop (handleClone s id) id).queue =
      [Signal.inc id, Signal.dec id] := by
    simp [handleDrop, handleClone, hq]
  have hdrain2 : drain (handleDrop (handleClone s id) id).connected
      (handleDrop (handleClone s id) id).queue
      (handleDrop (handleClone s id) id).handleCount [] =
      Except.ok (setA (setA s.handleCount id ((c + 1) % u32Mod)) id c, []) := by
    rw [hqueue]
    show drain s.connected [Signal.inc id, Signal.dec id] s.handleCount [] = _
    rw [hconn]
    exact hdrain
  refine ⟨afterPass (handleDrop (handleClone s id) id)
      (setA (setA s.handleCount id ((c + 1) % u32Mod)) id c) [], ?_, ?_, ?_, ?_, ?_⟩
  · unfold updateHandles
    rw [hdrain2]
    rfl
  · intro j
    show lookupA (setA (setA s.handleCount id ((c + 1) % u32Mod)) id c) j =
      lookupA s.handleCount j
    by_cases hj : j = id
    · subst hj
      rw [lookupA_setA_self _ j c ((c + 1) % u32Mod) hc1, hc]
    · rw [lookupA_setA_ne _ id j c hj, lookupA_setA_ne _ id j _ hj]
  · rfl
  · exact ha
  · rfl

/-- A reconciled storage holding asset 0 with liveness count 1. -/
def sC6 : Inner Nat :=
  { queue := [], connected := true, currentId := 1, loadedAssets := [(0, 37)],
    removedAssets := [], handleCount := [(0, 1)], assetLoaders := [] }

theorem clone_drop_identity_witness :
    ∃ s', updateHandles (handleDrop (handleClone sC6 0) 0) = Except.ok s'
      ∧ (∀ j, lookupA s'.handleCount j = lookupA sC6.handleCount j)
      ∧ s'.loadedAssets = sC6.loadedAssets
      ∧ lookupA s'.loadedAssets 0 = some 37
      ∧ s'.removedAssets = [] :=
  clone_drop_identity sC6 0 1 37 rfl rfl rfl (by decide) (by decide) rfl

/-! ### Claim C8 -/

theorem currentId_insertIter {A : Type} (a : A) :
    ∀ n, (insertIter (newStorage A) a n).currentId = n % u32Mod := by
  intro n
  induction n with
  | zero => simp [insertIter, newStorage]
  | succ n ih =>
    show ((insertIter (newStorage A) a n).currentId + 1) % u32Mod =
      (n + 1) % u32Mod
    rw [ih]
    exact Nat.mod_add_mod n u32Mod 1

theorem issuedId_mod {A : Type} (a : A) (n : Nat) :
    issuedId (newStorage A) a n = n % u32Mod :=
  currentId_insertIter a n

/-- C8 counterexample: the id generator wraps after `2 ^ 32` issues (u32
wrapping add), so the id issued by insert number `2 ^ 32 + 1` equals the id
issued by the very first insert — ids are reused within the storage's
lifetime. -/
theorem asset_id_reused_after_wraparound :
    issuedId (newStorage Nat) 0 (2 ^ 32) = issuedId (newStorage Nat) 0 0
    ∧ 0 < 2 ^ 32 := by
  constructor
  · rw [issuedId_mod, issuedId_mod]
    simp [u32Mod]
  · norm_num

/-- C8 (amended): as long as fewer than `2 ^ 32` ids have been issued, the
ids issued by a storage are strictly increasing and never reused, the id
issued by insert number `n + 1` is exactly `n` (so the first is 0); the
generator returns the current value and advances it by one modulo
`2 ^ 32`. -/
theorem asset_ids_strictly_increasing_below_wraparound :
    (∀ (m n : Nat), m < n → n < u32Mod →
      issuedId (newStorage Nat) 0 m = m
      ∧ issuedId (newStorage Nat) 0 n = n
      ∧ issuedId (newStorage Nat) 0 m < issuedId (newStorage Nat) 0 n)
    ∧ (∀ (A : Type) (s : Inner A) (a : A),
      (insertAsset s a).1 = s.currentId
      ∧ (insertAsset s a).2.currentId = (s.currentId + 1) % u32Mod) := by
  constructor
  · intro m n hmn hn
    have hm : issuedId (newStorage Nat) 0 m = m := by
      rw [issuedId_mod]
      exact Nat.mod_eq_of_lt (lt_trans hmn hn)
    have hn' : issuedId (newStorage Nat) 0 n = n := by
      rw [issuedId_mod]
      exact Nat.mod_eq_of_lt hn
    exact ⟨hm, hn', by rw [hm, hn']; exact hmn⟩
  · intro A s a
    exact ⟨rfl, rfl⟩

theorem asset_ids_strictly_increasing_below_wraparound_witness :
    issuedId (newStorage Nat) 0 1 = 1
    ∧ issuedId (newStorage Nat) 0 2 = 2
    ∧ issuedId (newStorage Nat) 0 1 < issuedId (newStorage Nat) 0 2 :=
  asset_ids_strictly_increasing_below_wraparound.1 1 2 (by decide) (by decide)

end Cabat
